import Mathlib

/-!
Verification of the volumetric geometry routines of `CerebNet/datasets/utils.py`
(`map_size`, `crop_transform` and `_crop_transform_make_indices`,
`bounding_volume`, `bounding_volume_offset`, the matrix assembly of `readLTA`,
and `load_talairach_coordinates`).

Arrays are embedded shallowly: a 3-D volume is a shape together with a data
function on indices; numpy basic slicing (negative bounds wrap, bounds clamp)
is modelled explicitly; Python `//` is `Int.fdiv` and `int(x / 2)` is the
truncating `int_half`; `np.pad` with the default constant mode fills with
zero; Python `round` is round-half-to-even.
-/

/-- Normalisation of one slice bound for numpy basic slicing on an axis of
extent `len`: a negative bound counts from the end, then bounds clamp to
`[0, len]`. -/
def npBound (len : ℕ) (a : ℤ) : ℕ :=
  (min (max 0 (if a < 0 then (len : ℤ) + a else a)) (len : ℤ)).toNat

/-- Length of the numpy slice `[a:b]` of an axis of extent `len`. -/
def npSliceLen (len : ℕ) (a b : ℤ) : ℕ :=
  npBound len b - npBound len a

/-- A 3-D volume: a shape and a data function (values at indices outside the
shape are irrelevant; equality of volumes only inspects in-range indices). -/
structure Vol3 (α : Type) where
  s0 : ℕ
  s1 : ℕ
  s2 : ℕ
  data : ℕ → ℕ → ℕ → α

/-- Bit-for-bit equality of two volumes: same shape, same value at every
in-range voxel. -/
def VolEq {α : Type} (V W : Vol3 α) : Prop :=
  V.s0 = W.s0 ∧ V.s1 = W.s1 ∧ V.s2 = W.s2 ∧
    ∀ x y z, x < V.s0 → y < V.s1 → z < V.s2 → V.data x y z = W.data x y z

/-- numpy basic slicing `V[a0:b0, a1:b1, a2:b2]` of a 3-D volume. -/
def npSlice3 {α : Type} (V : Vol3 α) (r0 r1 r2 : ℤ × ℤ) : Vol3 α :=
  { s0 := npSliceLen V.s0 r0.1 r0.2
    s1 := npSliceLen V.s1 r1.1 r1.2
    s2 := npSliceLen V.s2 r2.1 r2.2
    data := fun x y z =>
      V.data (npBound V.s0 r0.1 + x) (npBound V.s1 r1.1 + y) (npBound V.s2 r2.1 + z) }

/-- `np.pad(V, [p0, p1, p2])` with constant zero fill. -/
def npPad3 {α : Type} [Zero α] (V : Vol3 α) (p0 p1 p2 : ℕ × ℕ) : Vol3 α :=
  { s0 := p0.1 + V.s0 + p0.2
    s1 := p1.1 + V.s1 + p1.2
    s2 := p2.1 + V.s2 + p2.2
    data := fun x y z =>
      if p0.1 ≤ x ∧ x < p0.1 + V.s0 ∧ p1.1 ≤ y ∧ y < p1.1 + V.s1 ∧
          p2.1 ≤ z ∧ z < p2.1 + V.s2 then
        V.data (x - p0.1) (y - p1.1) (z - p2.1)
      else 0 }

/-! ### map_size (`CerebNet/datasets/utils.py` lines 73-104)

Per axis with input extent `i` and base extent `j`, the source computes
`delta = i - j`, `left = delta // 2`; for `delta > 0` it selects
`slice(left, left + j)` with no padding, else the full slice with padding
`(-left, left - delta)`; the recorded unpad border is `[-left, -left + i]`. -/

/-- `left = delta // 2` of `map_size` (Python floor division). -/
def msLeft (i j : ℕ) : ℤ := ((i : ℤ) - j).fdiv 2

/-- The per-axis selection slice of `map_size` (`slice(None)` is `[0:i]`). -/
def msSel (i j : ℕ) : ℤ × ℤ :=
  if (i : ℤ) - j > 0 then (msLeft i j, msLeft i j + j) else (0, (i : ℤ))

/-- The per-axis `np.pad` amounts of `map_size`. -/
def msPad (i j : ℕ) : ℕ × ℕ :=
  if (i : ℤ) - j > 0 then (0, 0)
  else ((-msLeft i j).toNat, (msLeft i j - ((i : ℤ) - j)).toNat)

/-- The per-axis unpad border `[-left, -left + i]` recorded by `map_size`. -/
def msBorder (i j : ℕ) : ℤ × ℤ := (-msLeft i j, -msLeft i j + i)

/-- `map_size(arr, base_shape)`: early return when the shape already matches,
otherwise slice per axis and pad (padding is skipped when every pad is zero,
which leaves the array unchanged). -/
def map_size {α : Type} [Zero α] (V : Vol3 α) (b0 b1 b2 : ℕ) : Vol3 α :=
  if V.s0 = b0 ∧ V.s1 = b1 ∧ V.s2 = b2 then V
  else
    if msPad V.s0 b0 = (0, 0) ∧ msPad V.s1 b1 = (0, 0) ∧ msPad V.s2 b2 = (0, 0) then
      npSlice3 V (msSel V.s0 b0) (msSel V.s1 b1) (msSel V.s2 b2)
    else
      npPad3 (npSlice3 V (msSel V.s0 b0) (msSel V.s1 b1) (msSel V.s2 b2))
        (msPad V.s0 b0) (msPad V.s1 b1) (msPad V.s2 b2)

/-- The border index triple returned by `map_size(..., return_border=True)`. -/
def map_size_borders {α : Type} (V : Vol3 α) (b0 b1 b2 : ℕ) :
    (ℤ × ℤ) × (ℤ × ℤ) × (ℤ × ℤ) :=
  if V.s0 = b0 ∧ V.s1 = b1 ∧ V.s2 = b2 then
    ((0, (V.s0 : ℤ)), (0, (V.s1 : ℤ)), (0, (V.s2 : ℤ)))
  else (msBorder V.s0 b0, msBorder V.s1 b1, msBorder V.s2 b2)

/-! ### Per-axis arithmetic facts about `map_size` -/

theorem npBound_eq (len : ℕ) (a : ℤ) (h0 : 0 ≤ a) (h1 : a ≤ len) :
    npBound len a = a.toNat := by
  unfold npBound; split_ifs <;> omega

theorem npBound_zero (len : ℕ) : npBound len 0 = 0 := by
  unfold npBound; split_ifs <;> omega

theorem msLeft_eq (i j : ℕ) : msLeft i j = ((i : ℤ) - j) / 2 := by
  unfold msLeft
  exact Int.fdiv_eq_ediv _ (by norm_num)

theorem ms_axis_len (i j : ℕ) :
    (msPad i j).1 + npSliceLen i (msSel i j).1 (msSel i j).2 + (msPad i j).2 = j := by
  unfold msSel msPad npSliceLen
  rw [msLeft_eq]
  split_ifs with hd
  · rw [npBound_eq i (((i : ℤ) - j) / 2) (by omega) (by omega),
      npBound_eq i (((i : ℤ) - j) / 2 + j) (by omega) (by omega)]
    omega
  · rw [npBound_zero, npBound_eq i i (by omega) (by omega)]
    omega

theorem map_size_shape {α : Type} [Zero α] (V : Vol3 α) (b0 b1 b2 : ℕ) :
    (map_size V b0 b1 b2).s0 = b0 ∧ (map_size V b0 b1 b2).s1 = b1 ∧
      (map_size V b0 b1 b2).s2 = b2 := by
  have a0 := ms_axis_len V.s0 b0
  have a1 := ms_axis_len V.s1 b1
  have a2 := ms_axis_len V.s2 b2
  unfold map_size
  split_ifs with hsh hz
  · exact hsh
  · obtain ⟨z0, z1, z2⟩ := hz
    rw [Prod.ext_iff] at z0 z1 z2
    exact ⟨by simp only [npSlice3]; omega, by simp only [npSlice3]; omega,
      by simp only [npSlice3]; omega⟩
  · exact ⟨by simp only [npPad3, npSlice3]; omega, by simp only [npPad3, npSlice3]; omega,
      by simp only [npPad3, npSlice3]; omega⟩

theorem msLeft_nonpos {i j : ℕ} (h : i ≤ j) : msLeft i j ≤ 0 := by
  rw [msLeft_eq]; omega

theorem ms_pad_sel {i j : ℕ} (h : i ≤ j) : msSel i j = (0, (i : ℤ)) := by
  unfold msSel
  split_ifs with hd
  · exact absurd hd (by omega)
  · rfl

theorem ms_pad_fst {i j : ℕ} (h : i ≤ j) : ((msPad i j).1 : ℤ) = -msLeft i j := by
  have := msLeft_nonpos h
  unfold msPad
  split_ifs with hd
  · exact absurd hd (by omega)
  · simp only
    omega

theorem ms_pad_sum {i j : ℕ} (h : i ≤ j) : (msPad i j).1 + i + (msPad i j).2 = j := by
  have := ms_axis_len i j
  rw [ms_pad_sel h] at this
  rw [npSliceLen, npBound_zero, npBound_eq i i (by omega) (by omega)] at this
  omega

theorem ms_pad_border {i j : ℕ} (h : i ≤ j) :
    msBorder i j = (((msPad i j).1 : ℤ), ((msPad i j).1 : ℤ) + i) := by
  rw [msBorder, ms_pad_fst h]

theorem VolEq_refl {α : Type} (V : Vol3 α) : VolEq V V :=
  ⟨rfl, rfl, rfl, fun _ _ _ _ _ _ => rfl⟩

/-- Slicing with the full range `[0:extent]` on every axis is the identity. -/
theorem npSlice3_full {α : Type} (V : Vol3 α) :
    npSlice3 V (0, (V.s0 : ℤ)) (0, (V.s1 : ℤ)) (0, (V.s2 : ℤ)) = V := by
  obtain ⟨s0, s1, s2, d⟩ := V
  simp only [npSlice3, npSliceLen, npBound_zero]
  rw [npBound_eq s0 s0 (by omega) (by omega), npBound_eq s1 s1 (by omega) (by omega),
    npBound_eq s2 s2 (by omega) (by omega)]
  simp only [Int.toNat_natCast, Nat.sub_zero, Nat.zero_add]

/-- Slicing a zero-padded volume at `[pad_before : pad_before + extent]` on
every axis recovers the unpadded volume bit-for-bit. -/
theorem npPad3_roundTrip {α : Type} [Zero α] (W : Vol3 α) (p0 p1 p2 : ℕ × ℕ) :
    VolEq (npSlice3 (npPad3 W p0 p1 p2)
      ((p0.1 : ℤ), (p0.1 : ℤ) + W.s0)
      ((p1.1 : ℤ), (p1.1 : ℤ) + W.s1)
      ((p2.1 : ℤ), (p2.1 : ℤ) + W.s2)) W := by
  have B0 : npBound (npPad3 W p0 p1 p2).s0 (p0.1 : ℤ) = p0.1 := by
    rw [show (npPad3 W p0 p1 p2).s0 = p0.1 + W.s0 + p0.2 from rfl]
    rw [npBound_eq _ _ (by omega) (by omega)]; omega
  have B1 : npBound (npPad3 W p0 p1 p2).s1 (p1.1 : ℤ) = p1.1 := by
    rw [show (npPad3 W p0 p1 p2).s1 = p1.1 + W.s1 + p1.2 from rfl]
    rw [npBound_eq _ _ (by omega) (by omega)]; omega
  have B2 : npBound (npPad3 W p0 p1 p2).s2 (p2.1 : ℤ) = p2.1 := by
    rw [show (npPad3 W p0 p1 p2).s2 = p2.1 + W.s2 + p2.2 from rfl]
    rw [npBound_eq _ _ (by omega) (by omega)]; omega
  have E0 : npBound (npPad3 W p0 p1 p2).s0 ((p0.1 : ℤ) + W.s0) = p0.1 + W.s0 := by
    rw [show (npPad3 W p0 p1 p2).s0 = p0.1 + W.s0 + p0.2 from rfl,
      show ((p0.1 : ℤ) + W.s0) = ((p0.1 + W.s0 : ℕ) : ℤ) by push_cast; ring]
    rw [npBound_eq _ _ (by omega) (by omega)]; omega
  have E1 : npBound (npPad3 W p0 p1 p2).s1 ((p1.1 : ℤ) + W.s1) = p1.1 + W.s1 := by
    rw [show (npPad3 W p0 p1 p2).s1 = p1.1 + W.s1 + p1.2 from rfl,
      show ((p1.1 : ℤ) + W.s1) = ((p1.1 + W.s1 : ℕ) : ℤ) by push_cast; ring]
    rw [npBound_eq _ _ (by omega) (by omega)]; omega
  have E2 : npBound (npPad3 W p0 p1 p2).s2 ((p2.1 : ℤ) + W.s2) = p2.1 + W.s2 := by
    rw [show (npPad3 W p0 p1 p2).s2 = p2.1 + W.s2 + p2.2 from rfl,
      show ((p2.1 : ℤ) + W.s2) = ((p2.1 + W.s2 : ℕ) : ℤ) by push_cast; ring]
    rw [npBound_eq _ _ (by omega) (by omega)]; omega
  have S0 : (npSlice3 (npPad3 W p0 p1 p2)
      ((p0.1 : ℤ), (p0.1 : ℤ) + W.s0) ((p1.1 : ℤ), (p1.1 : ℤ) + W.s1)
      ((p2.1 : ℤ), (p2.1 : ℤ) + W.s2)).s0 = W.s0 := by
    show npSliceLen (npPad3 W p0 p1 p2).s0 (p0.1 : ℤ) ((p0.1 : ℤ) + W.s0) = W.s0
    rw [npSliceLen, B0, E0]; omega
  have S1 : (npSlice3 (npPad3 W p0 p1 p2)
      ((p0.1 : ℤ), (p0.1 : ℤ) + W.s0) ((p1.1 : ℤ), (p1.1 : ℤ) + W.s1)
      ((p2.1 : ℤ), (p2.1 : ℤ) + W.s2)).s1 = W.s1 := by
    show npSliceLen (npPad3 W p0 p1 p2).s1 (p1.1 : ℤ) ((p1.1 : ℤ) + W.s1) = W.s1
    rw [npSliceLen, B1, E1]; omega
  have S2 : (npSlice3 (npPad3 W p0 p1 p2)
      ((p0.1 : ℤ), (p0.1 : ℤ) + W.s0) ((p1.1 : ℤ), (p1.1 : ℤ) + W.s1)
      ((p2.1 : ℤ), (p2.1 : ℤ) + W.s2)).s2 = W.s2 := by
    show npSliceLen (npPad3 W p0 p1 p2).s2 (p2.1 : ℤ) ((p2.1 : ℤ) + W.s2) = W.s2
    rw [npSliceLen, B2, E2]; omega
  refine ⟨S0, S1, S2, fun x y z hx hy hz => ?_⟩
  rw [S0] at hx; rw [S1] at hy; rw [S2] at hz
  show (npPad3 W p0 p1 p2).data (npBound (npPad3 W p0 p1 p2).s0 (p0.1 : ℤ) + x)
      (npBound (npPad3 W p0 p1 p2).s1 (p1.1 : ℤ) + y)
      (npBound (npPad3 W p0 p1 p2).s2 (p2.1 : ℤ) + z) = W.data x y z
  rw [B0, B1, B2]
  show (if p0.1 ≤ p0.1 + x ∧ p0.1 + x < p0.1 + W.s0 ∧ p1.1 ≤ p1.1 + y ∧
      p1.1 + y < p1.1 + W.s1 ∧ p2.1 ≤ p2.1 + z ∧ p2.1 + z < p2.1 + W.s2 then
      W.data (p0.1 + x - p0.1) (p1.1 + y - p1.1) (p2.1 + z - p2.1) else 0) = W.data x y z
  rw [if_pos ⟨by omega, by omega, by omega, by omega, by omega, by omega⟩]
  congr 1 <;> omega

/-- **C1 (amended).** Round-trip invariant of `map_size`: when the input volume
does not exceed the base shape on any axis (so that only padding, never
cropping, occurs), slicing the output of `map_size` at the returned border
indices reproduces the input bit-for-bit, for any element type. -/
theorem map_size_roundTrip {α : Type} [Zero α] (V : Vol3 α) (b0 b1 b2 : ℕ)
    (h0 : V.s0 ≤ b0) (h1 : V.s1 ≤ b1) (h2 : V.s2 ≤ b2) :
    VolEq (npSlice3 (map_size V b0 b1 b2)
      (map_size_borders V b0 b1 b2).1
      (map_size_borders V b0 b1 b2).2.1
      (map_size_borders V b0 b1 b2).2.2) V := by
  by_cases hsh : V.s0 = b0 ∧ V.s1 = b1 ∧ V.s2 = b2
  · simp only [map_size, map_size_borders, if_pos hsh]
    rw [npSlice3_full]
    exact VolEq_refl V
  · simp only [map_size, map_size_borders, if_neg hsh]
    have hsl : npSlice3 V (msSel V.s0 b0) (msSel V.s1 b1) (msSel V.s2 b2) = V := by
      rw [ms_pad_sel h0, ms_pad_sel h1, ms_pad_sel h2, npSlice3_full]
    split_ifs with hz
    · obtain ⟨z0, z1, z2⟩ := hz
      rw [Prod.ext_iff] at z0 z1 z2
      have q0 := ms_pad_sum h0
      have q1 := ms_pad_sum h1
      have q2 := ms_pad_sum h2
      exact absurd ⟨by omega, by omega, by omega⟩ hsh
    · rw [hsl, ms_pad_border h0, ms_pad_border h1, ms_pad_border h2]
      exact npPad3_roundTrip V (msPad V.s0 b0) (msPad V.s1 b1) (msPad V.s2 b2)

/-- Witness for C1: the round-trip theorem applied to a concrete volume of
shape (2,1,1) mapped into base shape (4,1,1). -/
theorem map_size_roundTrip_witness :
    VolEq (npSlice3 (map_size (⟨2, 1, 1, fun x _ _ => (x : ℤ)⟩ : Vol3 ℤ) 4 1 1)
      (map_size_borders (⟨2, 1, 1, fun x _ _ => (x : ℤ)⟩ : Vol3 ℤ) 4 1 1).1
      (map_size_borders (⟨2, 1, 1, fun x _ _ => (x : ℤ)⟩ : Vol3 ℤ) 4 1 1).2.1
      (map_size_borders (⟨2, 1, 1, fun x _ _ => (x : ℤ)⟩ : Vol3 ℤ) 4 1 1).2.2)
      (⟨2, 1, 1, fun x _ _ => (x : ℤ)⟩ : Vol3 ℤ) :=
  map_size_roundTrip _ 4 1 1 (by decide) (by decide) (by decide)

/-- **C1 (counterexample).** The round-trip claim fails as stated for every
volume and base shape: for the volume of shape (3,1,1) with data 0,1,2 on the
first axis and base shape (1,1,1), `map_size` crops, and slicing the output at
the returned borders cannot reproduce the input (the slice has extent 1, the
input extent 3). -/
theorem map_size_roundTrip_counterexample :
    ¬ VolEq (npSlice3 (map_size (⟨3, 1, 1, fun x _ _ => (x : ℤ)⟩ : Vol3 ℤ) 1 1 1)
      (map_size_borders (⟨3, 1, 1, fun x _ _ => (x : ℤ)⟩ : Vol3 ℤ) 1 1 1).1
      (map_size_borders (⟨3, 1, 1, fun x _ _ => (x : ℤ)⟩ : Vol3 ℤ) 1 1 1).2.1
      (map_size_borders (⟨3, 1, 1, fun x _ _ => (x : ℤ)⟩ : Vol3 ℤ) 1 1 1).2.2)
      (⟨3, 1, 1, fun x _ _ => (x : ℤ)⟩ : Vol3 ℤ) :=
  fun h => absurd h.1 (by decide)

/-! ### crop_transform (`CerebNet/datasets/utils.py` lines 589-628 and 676-770)

`_crop_transform_make_indices` builds, per spatial axis, a clamped slice
`slice(max(0, offset), min(offset + target, extent))` and the padding pair
`(max(0, -offset), max(0, offset + target - crop_end))`.  `crop_transform`
resolves the target shape (from `out` when absent), computes default centered
offsets `int((i - t) / 2)` when offsets are omitted, derives the target as
`i - 2*o` when only offsets are given, resolves the `-1` sentinel when both
are given, and validates lengths.  The model tracks the resulting shape of
the cropped-then-padded array and the raised errors. -/

/-- Python `int(x / 2)`: true division by 2, truncated toward zero. -/
def int_half (d : ℤ) : ℤ := if 0 ≤ d then d / 2 else -(-d / 2)

/-- The default centered offset of `crop_transform`: `int((i - t) / 2)`. -/
def defaultOffset (i t : ℤ) : ℤ := int_half (i - t)

/-- Per-axis plan of `_crop_transform_make_indices`: the clamped slice bounds
and the (before, after) padding amounts. -/
structure CTAxis where
  lo : ℤ
  hi : ℤ
  padB : ℕ
  padA : ℕ
  deriving DecidableEq

/-- One axis of `_crop_transform_make_indices`: `crop_end = min(offset +
t_shape, i_shape)`, slice `[max(0, offset) : crop_end]`, pads `(max(0,
-offset), max(0, offset + t_shape - crop_end))`. -/
def ctMakeAxis (offset t_shape : ℤ) (i_shape : ℕ) : CTAxis :=
  { lo := max 0 offset
    hi := min (offset + t_shape) (i_shape : ℤ)
    padB := (max 0 (-offset)).toNat
    padA := (max 0 (offset + t_shape - min (offset + t_shape) (i_shape : ℤ))).toNat }

/-- Errors raised by `crop_transform` / `_crop_transform_make_indices`:
the `ValueError` for missing arguments (line 730), the `ValueError` for
offset/target length mismatch (line 742), the `RuntimeError` for offsets
longer than the image rank (line 752), and the two `ValueError`s of
`_crop_transform_make_indices` (lines 609-614). -/
inductive CTError
  | invalidArgs
  | offsetTargetMismatch
  | offsetsTooLong
  | indicesMismatch
  | indicesTooLong
  deriving DecidableEq

instance {ε α : Type} [DecidableEq ε] [DecidableEq α] : DecidableEq (Except ε α) :=
  fun x y =>
    match x, y with
    | .error e, .error f =>
      if h : e = f then isTrue (by subst h; rfl)
      else isFalse (by intro hh; cases hh; exact h rfl)
    | .ok a, .ok b =>
      if h : a = b then isTrue (by subst h; rfl)
      else isFalse (by intro hh; cases hh; exact h rfl)
    | .error _, .ok _ => isFalse (by intro hh; cases hh)
    | .ok _, .error _ => isFalse (by intro hh; cases hh)

/-- Three-list pointwise zip. -/
def zip3With {α β γ δ : Type} (f : α → β → γ → δ) : List α → List β → List γ → List δ
  | a :: as, b :: bs, c :: cs => f a b c :: zip3With f as bs cs
  | _, _, _ => []

/-- `_crop_transform_make_indices(image_shape, offsets, target_shape)`:
validates lengths, then zips `offsets`, `target_shape` and the trailing
spatial extents of `image_shape` into per-axis plans. -/
def crop_transform_make_indices (imageShape : List ℕ) (offsets targetShape : List ℤ) :
    Except CTError (List CTAxis) :=
  if offsets.length ≠ targetShape.length then .error .indicesMismatch
  else if offsets.length > imageShape.length then .error .indicesTooLong
  else .ok (zip3With ctMakeAxis offsets targetShape
      (imageShape.drop (imageShape.length - offsets.length)))

/-- Extent of one output axis: slice length plus both pads. -/
def ctAxisLen (a : CTAxis) (i : ℕ) : ℕ := a.padB + npSliceLen i a.lo a.hi + a.padA

/-- Shape of `pad_fn(image[indices])`: untouched batch extents followed by the
per-axis output extents. -/
def ctResultShape (imageShape : List ℕ) (axes : List CTAxis) : List ℕ :=
  imageShape.take (imageShape.length - axes.length) ++
    List.zipWith ctAxisLen axes (imageShape.drop (imageShape.length - axes.length))

/-- `crop_transform(image, offsets, target_shape, out)` at the level of shapes
and argument validation, following lines 724-756 of the source: `out`'s shape
stands in for an absent `target_shape`; absent offsets become
`int((i - t) / 2)` over the zip of the full target shape with the image shape;
an absent target becomes `i - 2*o` on the trailing axes; when both are given,
lengths must agree and `-1` entries resolve to the image extent.  Python's
`shape[:-k]` / `shape[-k:]` for `k = 0` are the empty and the whole tuple. -/
def crop_transform (imageShape : List ℕ) (offsets : Option (List ℤ))
    (target_shape : Option (List ℤ)) (outShape : Option (List ℕ)) :
    Except CTError (List ℕ) :=
  let tShape : Option (List ℤ) :=
    match target_shape, outShape with
    | none, some o => some (o.map (fun n : ℕ => (n : ℤ)))
    | t, _ => t
  let osT : Except CTError (List ℤ × List ℤ) :=
    match offsets, tShape with
    | none, none => .error .invalidArgs
    | none, some ts =>
        let full := (if ts.length = 0 then [] else
            (imageShape.take (imageShape.length - ts.length)).map (fun n : ℕ => (n : ℤ))) ++ ts
        .ok (List.zipWith (fun t i => defaultOffset i t) full (imageShape.map (fun n : ℕ => (n : ℤ))),
          full)
    | some os, none =>
        let sfx := imageShape.drop (if os.length = 0 then 0 else imageShape.length - os.length)
        .ok (os, (if os.length = 0 then [] else
            (imageShape.take (imageShape.length - os.length)).map (fun n : ℕ => (n : ℤ))) ++
          List.zipWith (fun i o => (i : ℤ) - 2 * o) (sfx.map (fun n : ℕ => (n : ℤ))) os)
    | some os, some ts =>
        if os.length ≠ ts.length then .error .offsetTargetMismatch
        else
          let sfx := imageShape.drop (if os.length = 0 then 0 else imageShape.length - os.length)
          .ok (os, (if os.length = 0 then [] else
              (imageShape.take (imageShape.length - os.length)).map (fun n : ℕ => (n : ℤ))) ++
            List.zipWith (fun i t => if t = -1 then (i : ℤ) else t) (sfx.map (fun n : ℕ => (n : ℤ))) ts)
  match osT with
  | .error e => .error e
  | .ok (os, full) =>
      if os.length > imageShape.length then .error .offsetsTooLong
      else (crop_transform_make_indices imageShape os full).map (ctResultShape imageShape)

/-! ### C2: shape postcondition of crop_transform and map_size -/

theorem ctAxisLen_makeAxis (o : ℤ) (t i : ℕ) (h1 : -(t : ℤ) ≤ o) (h2 : o ≤ (i : ℤ)) :
    ctAxisLen (ctMakeAxis o (t : ℤ) i) i = t := by
  unfold ctAxisLen ctMakeAxis npSliceLen
  simp only
  rw [npBound_eq i (max 0 o) (by omega) (by omega),
    npBound_eq i (min (o + t) i) (by omega) (by omega)]
  omega

theorem ct_resolve_sentinel : ∀ (is ts : List ℕ), ts.length = is.length →
    List.zipWith (fun i t => if t = -1 then (i : ℤ) else t)
      (is.map (fun n : ℕ => (n : ℤ))) (ts.map (fun n : ℕ => (n : ℤ))) =
      ts.map (fun n : ℕ => (n : ℤ)) := by
  intro is
  induction is with
  | nil =>
    intro ts h
    cases ts with
    | nil => rfl
    | cons t ts' => simp at h
  | cons i is' ih =>
    intro ts h
    cases ts with
    | nil => simp at h
    | cons t ts' =>
      simp only [List.map_cons, List.zipWith_cons_cons]
      rw [if_neg (by omega), ih ts' (by simpa using h)]

theorem ct_zip_len : ∀ (is : List ℕ) (os : List ℤ) (ts : List ℕ),
    os.length = is.length → ts.length = is.length →
    (∀ k, k < is.length →
      -(ts.getD k 0 : ℤ) ≤ os.getD k 0 ∧ os.getD k 0 ≤ (is.getD k 0 : ℤ)) →
    List.zipWith ctAxisLen (zip3With ctMakeAxis os (ts.map (fun n : ℕ => (n : ℤ))) is) is
      = ts := by
  intro is
  induction is with
  | nil =>
    intro os ts h1 h2 _
    cases os with
    | nil =>
      cases ts with
      | nil => rfl
      | cons t ts' => simp at h2
    | cons o os' => simp at h1
  | cons i is' ih =>
    intro os ts h1 h2 hb
    cases os with
    | nil => simp at h1
    | cons o os' =>
      cases ts with
      | nil => simp at h2
      | cons t ts' =>
        have hb0 := hb 0 (Nat.succ_pos _)
        simp only [List.getD_cons_zero] at hb0
        simp only [List.map_cons, zip3With, List.zipWith_cons_cons]
        rw [ctAxisLen_makeAxis o t i hb0.1 hb0.2,
          ih os' ts' (by simpa using h1) (by simpa using h2)
            (fun k hk => by
              have := hb (k + 1) (by simpa using hk)
              simpa using this)]

theorem zip3With_length {α β γ δ : Type} (f : α → β → γ → δ) :
    ∀ (as : List α) (bs : List β) (cs : List γ),
      (zip3With f as bs cs).length = min (min as.length bs.length) cs.length := by
  intro as
  induction as with
  | nil => intro bs cs; cases bs <;> cases cs <;> simp [zip3With]
  | cons a as' ih =>
    intro bs cs
    cases bs with
    | nil => simp [zip3With]
    | cons b bs' =>
      cases cs with
      | nil => simp [zip3With]
      | cons c cs' => simp [zip3With, ih]; omega

/-- **C2 (amended).** Shape postcondition: `crop_transform` (offsets and
target both given) returns an array whose spatial shape equals the requested
target shape exactly, provided offsets and target have exactly as many entries
as the image has dimensions and, per axis, `-target ≤ offset ≤ extent`; under
those bounds any shortfall of the clamped crop range is fully absorbed by
padding.  `map_size` always returns the base shape.  (As stated the claim
fails: offsets beyond those bounds make `crop_transform` return a different
shape, and offsets of length below the image rank raise an error.) -/
theorem crop_transform_shape_postcondition :
    (∀ (imageShape : List ℕ) (os : List ℤ) (ts : List ℕ),
      os.length = imageShape.length → ts.length = imageShape.length →
      (∀ k, k < imageShape.length →
        -(ts.getD k 0 : ℤ) ≤ os.getD k 0 ∧ os.getD k 0 ≤ (imageShape.getD k 0 : ℤ)) →
      crop_transform imageShape (some os) (some (ts.map (fun n : ℕ => (n : ℤ)))) none =
        Except.ok ts) ∧
    (∀ (α : Type) [Zero α] (V : Vol3 α) (b0 b1 b2 : ℕ),
      (map_size V b0 b1 b2).s0 = b0 ∧ (map_size V b0 b1 b2).s1 = b1 ∧
        (map_size V b0 b1 b2).s2 = b2) := by
  constructor
  · intro is0 os ts h1 h2 hb
    cases is0 with
    | nil =>
      cases os with
      | nil =>
        cases ts with
        | nil => rfl
        | cons t ts' => simp at h2
      | cons o os' => simp at h1
    | cons i is' =>
      simp only [crop_transform, List.length_map, h1, h2]
      rw [if_neg (show ¬((i :: is').length ≠ (i :: is').length) by omega)]
      dsimp only
      rw [if_neg (show ¬ os.length > (i :: is').length by omega)]
      have hz : ((i :: is').length = 0) = False := by simp
      simp only [hz, if_false, Nat.sub_self, List.take_zero, List.map_nil, List.nil_append,
        List.drop_zero]
      rw [ct_resolve_sentinel (i :: is') ts h2]
      simp only [crop_transform_make_indices, List.length_map, h1, h2]
      rw [if_neg (show ¬((i :: is').length ≠ (i :: is').length) by omega),
        if_neg (show ¬ (i :: is').length > (i :: is').length by omega)]
      simp only [Except.map, Nat.sub_self, List.drop_zero]
      rw [ctResultShape, zip3With_length, List.length_map, h1, h2]
      simp only [Nat.min_self, Nat.sub_self, List.take_zero, List.nil_append, List.drop_zero]
      rw [ct_zip_len (i :: is') os ts h1 h2 hb]
  · intro α _ V b0 b1 b2
    exact map_size_shape V b0 b1 b2

/-- Witness for C2: the shape postcondition applied to a 10x10x10 image,
offsets (3,3,3) and target shape (4,4,4). -/
theorem crop_transform_shape_postcondition_witness :
    crop_transform [10, 10, 10] (some [3, 3, 3])
      (some ([4, 4, 4].map (fun n : ℕ => (n : ℤ)))) none = Except.ok [4, 4, 4] :=
  crop_transform_shape_postcondition.1 [10, 10, 10] [3, 3, 3] [4, 4, 4]
    (by decide) (by decide) (by decide)

/-- **C2 (counterexample).** For the 3-D image of shape (1,1,4) with offsets
(0,0,5) — an offset past the end of the last axis, producing an empty clamped
crop range — and target shape (1,1,3), `crop_transform` returns an array of
shape (1,1,4), not the requested (1,1,3): the shortfall is not absorbed into
the requested shape. -/
theorem crop_transform_shape_counterexample :
    crop_transform [1, 1, 4] (some [0, 0, 5]) (some [1, 1, 3]) none =
      Except.ok [1, 1, 4] ∧ ([1, 1, 4] : List ℕ) ≠ [1, 1, 3] :=
  ⟨by decide, by decide⟩

/-! ### C4, C5: centering of default offsets -/

/-- Per-axis behaviour of `crop_transform`'s default centered offset
`int((i - t) / 2)`: the amounts cropped low/high and padded before/after. -/
theorem ct_default_axis (i t : ℕ) :
    npBound i (ctMakeAxis (defaultOffset (i : ℤ) (t : ℤ)) (t : ℤ) i).lo = (i - t) / 2 ∧
    npBound i (ctMakeAxis (defaultOffset (i : ℤ) (t : ℤ)) (t : ℤ) i).hi =
      i - ((i - t) - (i - t) / 2) ∧
    (ctMakeAxis (defaultOffset (i : ℤ) (t : ℤ)) (t : ℤ) i).padB = (t - i) / 2 ∧
    (ctMakeAxis (defaultOffset (i : ℤ) (t : ℤ)) (t : ℤ) i).padA =
      (t - i) - (t - i) / 2 := by
  unfold ctMakeAxis defaultOffset int_half
  simp only
  by_cases hd : 0 ≤ (i : ℤ) - t
  · rw [if_pos hd]
    rw [npBound_eq i (max 0 (((i : ℤ) - t) / 2)) (by omega) (by omega),
      npBound_eq i (min (((i : ℤ) - t) / 2 + t) i) (by omega) (by omega)]
    exact ⟨by omega, by omega, by omega, by omega⟩
  · rw [if_neg hd]
    rw [npBound_eq i (max 0 (-(-((i : ℤ) - t) / 2))) (by omega) (by omega),
      npBound_eq i (min (-(-((i : ℤ) - t) / 2) + t) i) (by omega) (by omega)]
    exact ⟨by omega, by omega, by omega, by omega⟩

/-- The same quantities for one axis of `map_size`. -/
theorem ms_axis_bounds (i t : ℕ) :
    npBound i (msSel i t).1 = (i - t) / 2 ∧
    npBound i (msSel i t).2 = i - ((i - t) - (i - t) / 2) ∧
    (msPad i t).1 = (t - i) - (t - i) / 2 ∧
    (msPad i t).2 = (t - i) / 2 := by
  unfold msSel msPad
  rw [msLeft_eq]
  split_ifs with hd
  · rw [npBound_eq i (((i : ℤ) - t) / 2) (by omega) (by omega),
      npBound_eq i (((i : ℤ) - t) / 2 + t) (by omega) (by omega)]
    exact ⟨by omega, by omega, by omega, by omega⟩
  · rw [npBound_zero, npBound_eq i i (by omega) (by omega)]
    exact ⟨by omega, by omega, by omega, by omega⟩

/-- **C4 (confirmed).** With `crop_transform`'s default centered offsets, on
each axis with input extent `i` and target extent `t`: in the crop direction
the low side loses exactly `(i-t)/2` (the floor half) and the high side the
remainder; in the pad direction the low side gains exactly `(t-i)/2` (the
floor half) and the high side the remainder.  For even deltas both sides thus
get exactly half; for odd deltas the low side absorbs the floor half. -/
theorem crop_transform_default_centering (i t : ℕ) :
    npBound i (ctMakeAxis (defaultOffset (i : ℤ) (t : ℤ)) (t : ℤ) i).lo = (i - t) / 2 ∧
    i - npBound i (ctMakeAxis (defaultOffset (i : ℤ) (t : ℤ)) (t : ℤ) i).hi =
      (i - t) - (i - t) / 2 ∧
    (ctMakeAxis (defaultOffset (i : ℤ) (t : ℤ)) (t : ℤ) i).padB = (t - i) / 2 ∧
    (ctMakeAxis (defaultOffset (i : ℤ) (t : ℤ)) (t : ℤ) i).padA =
      (t - i) - (t - i) / 2 := by
  obtain ⟨a, b, c, d⟩ := ct_default_axis i t
  have hb : npBound i (ctMakeAxis (defaultOffset (i : ℤ) (t : ℤ)) (t : ℤ) i).hi ≤ i := by
    unfold npBound; split_ifs <;> omega
  exact ⟨a, by omega, c, d⟩

/-- **C5 (amended).** `map_size` and `crop_transform` with default offsets
select the identical centered crop region on every axis, and in the pad
direction both split the total pad into a floor half and the remainder — but
with opposite bias: `map_size` places the larger (ceiling) part on the leading
side, `crop_transform` places it on the trailing side, so the per-side split
agrees exactly when the pad delta is even (and the crop direction always
agrees). -/
theorem map_size_crop_transform_bias (i t : ℕ) :
    npBound i (msSel i t).1 =
      npBound i (ctMakeAxis (defaultOffset (i : ℤ) (t : ℤ)) (t : ℤ) i).lo ∧
    npBound i (msSel i t).2 =
      npBound i (ctMakeAxis (defaultOffset (i : ℤ) (t : ℤ)) (t : ℤ) i).hi ∧
    (msPad i t).1 = (t - i) - (t - i) / 2 ∧
    (msPad i t).2 = (t - i) / 2 ∧
    (ctMakeAxis (defaultOffset (i : ℤ) (t : ℤ)) (t : ℤ) i).padB = (t - i) / 2 ∧
    (ctMakeAxis (defaultOffset (i : ℤ) (t : ℤ)) (t : ℤ) i).padA =
      (t - i) - (t - i) / 2 := by
  obtain ⟨a, b, c, d⟩ := ct_default_axis i t
  obtain ⟨a', b', c', d'⟩ := ms_axis_bounds i t
  exact ⟨by omega, by omega, c', d', c, d⟩

/-- **C5 (counterexample).** For input extent 1 and target extent 2 (odd pad
delta), `map_size` pads (1, 0) — the whole pad on the leading side — while
`crop_transform`'s default offsets pad (0, 1): the per-side pad split differs
between the two routines. -/
theorem map_size_crop_transform_bias_counterexample :
    msPad 1 2 = (1, 0) ∧
    ((ctMakeAxis (defaultOffset (1 : ℤ) (2 : ℤ)) (2 : ℤ) 1).padB,
      (ctMakeAxis (defaultOffset (1 : ℤ) (2 : ℤ)) (2 : ℤ) 1).padA) = (0, 1) := by
  constructor
  · decide
  · decide

/-! ### C6: argument validation of crop_transform -/

def effTarget (ts? : Option (List ℤ)) (out? : Option (List ℕ)) : Option (List ℤ) :=
  match ts?, out? with
  | none, some o => some (o.map (fun n : ℕ => (n : ℤ)))
  | t, _ => t

theorem crop_transform_effTarget (is : List ℕ) (os? ts? : Option (List ℤ))
    (out? : Option (List ℕ)) :
    crop_transform is os? ts? out? = crop_transform is os? (effTarget ts? out?) none := by
  cases ts? <;> cases out? <;> rfl

theorem ct_none_some_err (is : List ℕ) (ts : List ℤ) (h : ts.length > is.length) :
    crop_transform is none (some ts) none = Except.error CTError.indicesMismatch := by
  have hm : ¬ ts.length = 0 := by omega
  simp only [crop_transform, if_neg hm]
  have e1 : is.length - ts.length = 0 := by omega
  rw [e1, List.take_zero, List.map_nil, List.nil_append]
  simp only [crop_transform_make_indices, List.length_zipWith, List.length_map]
  rw [if_neg (by omega : ¬ min ts.length is.length > is.length),
    if_pos (by omega : min ts.length is.length ≠ ts.length)]
  rfl

theorem ct_none_some_ok (is : List ℕ) (ts : List ℤ) (h : ts.length ≤ is.length) :
    ∀ e, crop_transform is none (some ts) none ≠ Except.error e := by
  intro e hc
  by_cases hm : ts.length = 0
  · have : ts = [] := List.eq_nil_of_length_eq_zero hm
    subst this
    simp [crop_transform, crop_transform_make_indices, Except.map] at hc
  · simp only [crop_transform, if_neg hm] at hc
    have e1 : (List.map (fun n : ℕ => (n : ℤ)) (List.take (is.length - ts.length) is)
        ++ ts).length = is.length := by
      rw [List.length_append, List.length_map, List.length_take]; omega
    simp only [crop_transform_make_indices, List.length_zipWith, List.length_map, e1] at hc
    rw [if_neg (by omega : ¬ min is.length is.length > is.length),
      if_neg (by omega : ¬ min is.length is.length ≠ is.length)] at hc
    simp [Except.map] at hc

theorem ct_some_mismatch (is : List ℕ) (os ts : List ℤ) (h : os.length ≠ ts.length) :
    crop_transform is (some os) (some ts) none =
      Except.error CTError.offsetTargetMismatch := by
  simp only [crop_transform, if_pos h]

theorem ct_none_none (is : List ℕ) :
    crop_transform is none none none = Except.error CTError.invalidArgs := rfl

theorem ct_full_len_none (is : List ℕ) (os : List ℤ) :
    ((List.map (fun n : ℕ => (n : ℤ)) (List.take (is.length - os.length) is)) ++
      List.zipWith (fun i o => (i : ℤ) - 2 * o)
        (List.map (fun n : ℕ => (n : ℤ)) (List.drop (is.length - os.length) is)) os).length
      = is.length := by
  rw [List.length_append, List.length_map, List.length_take, List.length_zipWith,
    List.length_map, List.length_drop]
  omega

theorem ct_full_len_some (is : List ℕ) (os ts : List ℤ) (h : ts.length = os.length) :
    ((List.map (fun n : ℕ => (n : ℤ)) (List.take (is.length - os.length) is)) ++
      List.zipWith (fun i t => if t = -1 then (i : ℤ) else t)
        (List.map (fun n : ℕ => (n : ℤ)) (List.drop (is.length - os.length) is)) ts).length
      = is.length := by
  rw [List.length_append, List.length_map, List.length_take, List.length_zipWith,
    List.length_map, List.length_drop]
  omega

theorem ct_some_ok (is : List ℕ) (os : List ℤ) (tE : Option (List ℤ))
    (hm : ∀ ts, tE = some ts → ts.length = os.length)
    (hk : os.length = 0 ∨ os.length = is.length) :
    ∀ e, crop_transform is (some os) tE none ≠ Except.error e := by
  intro e hc
  cases tE with
  | none =>
    by_cases hk0 : os.length = 0
    · obtain rfl := List.eq_nil_of_length_eq_zero hk0
      simp [crop_transform, crop_transform_make_indices, Except.map] at hc
    · have hkn : os.length = is.length := hk.resolve_left hk0
      simp only [crop_transform, if_neg hk0] at hc
      rw [if_neg (by omega : ¬ os.length > is.length)] at hc
      simp only [crop_transform_make_indices, ct_full_len_none] at hc
      rw [if_neg (by omega : ¬ os.length ≠ is.length),
        if_neg (by omega : ¬ os.length > is.length)] at hc
      simp [Except.map] at hc
  | some ts =>
    have hmk := hm ts rfl
    by_cases hk0 : os.length = 0
    · obtain rfl := List.eq_nil_of_length_eq_zero hk0
      obtain rfl := List.eq_nil_of_length_eq_zero (by omega : ts.length = 0)
      simp [crop_transform, crop_transform_make_indices, Except.map] at hc
    · have hkn : os.length = is.length := hk.resolve_left hk0
      simp only [crop_transform, if_neg (by omega : ¬ os.length ≠ ts.length),
        if_neg hk0] at hc
      rw [if_neg (by omega : ¬ os.length > is.length)] at hc
      simp only [crop_transform_make_indices, ct_full_len_some is os ts hmk] at hc
      rw [if_neg (by omega : ¬ os.length ≠ is.length),
        if_neg (by omega : ¬ os.length > is.length)] at hc
      simp [Except.map] at hc

theorem ct_some_err (is : List ℕ) (os : List ℤ) (tE : Option (List ℤ))
    (hm : ∀ ts, tE = some ts → ts.length = os.length)
    (hk0 : os.length ≠ 0) (hkn : os.length ≠ is.length) :
    ∃ e, crop_transform is (some os) tE none = Except.error e ∧
      e ≠ CTError.invalidArgs := by
  cases tE with
  | none =>
    by_cases hgt : os.length > is.length
    · refine ⟨CTError.offsetsTooLong, ?_, by intro hh; cases hh⟩
      simp only [crop_transform, if_neg hk0]
      rw [if_pos hgt]
    · refine ⟨CTError.indicesMismatch, ?_, by intro hh; cases hh⟩
      simp only [crop_transform, if_neg hk0]
      rw [if_neg hgt]
      simp only [crop_transform_make_indices, ct_full_len_none]
      rw [if_pos (by omega : os.length ≠ is.length)]
      rfl
  | some ts =>
    have hmk := hm ts rfl
    by_cases hgt : os.length > is.length
    · refine ⟨CTError.offsetsTooLong, ?_, by intro hh; cases hh⟩
      simp only [crop_transform, if_neg (by omega : ¬ os.length ≠ ts.length), if_neg hk0]
      rw [if_pos hgt]
    · refine ⟨CTError.indicesMismatch, ?_, by intro hh; cases hh⟩
      simp only [crop_transform, if_neg (by omega : ¬ os.length ≠ ts.length), if_neg hk0]
      rw [if_neg hgt]
      simp only [crop_transform_make_indices, ct_full_len_some is os ts hmk]
      rw [if_pos (by omega : os.length ≠ is.length)]
      rfl

set_option maxHeartbeats 800000 in
/-- **C6 (amended).** Argument validation of `crop_transform`:
it raises the invalid-arguments error exactly when offsets, target shape and
out are all omitted.  It raises a shape-mismatch/validation error exactly when
(a) offsets and an effective target (target shape, or out's shape) are both
given with different lengths, or (b) offsets are given with a nonzero length
different from the image's dimensionality — longer offsets raise the
too-long error, and *shorter* nonempty offsets also raise a mismatch
(contrary to the claim), or (c) offsets are omitted and the effective target
is longer than the image's dimensionality (also contrary to the claim).  In
every other configuration no argument-validation error is raised. -/
theorem crop_transform_validation (is : List ℕ) (os? ts? : Option (List ℤ))
    (out? : Option (List ℕ)) :
    (crop_transform is os? ts? out? = Except.error CTError.invalidArgs ↔
      os? = none ∧ ts? = none ∧ out? = none) ∧
    ((∃ e, crop_transform is os? ts? out? = Except.error e ∧ e ≠ CTError.invalidArgs) ↔
      (∃ osG tsG, os? = some osG ∧ effTarget ts? out? = some tsG ∧
        tsG.length ≠ osG.length) ∨
      (∃ osG, os? = some osG ∧
        (∀ tsG, effTarget ts? out? = some tsG → tsG.length = osG.length) ∧
        osG.length ≠ 0 ∧ osG.length ≠ is.length) ∨
      (os? = none ∧ ∃ tsG, effTarget ts? out? = some tsG ∧ tsG.length > is.length)) := by
  rw [crop_transform_effTarget]
  have hEffNone : effTarget ts? out? = none ↔ ts? = none ∧ out? = none := by
    cases ts? <;> cases out? <;> simp [effTarget]
  cases os? with
  | none =>
    cases hE : effTarget ts? out? with
    | none =>
      obtain ⟨h1, h2⟩ := hEffNone.mp hE
      subst h1; subst h2
      rw [ct_none_none]
      constructor
      · simp
      · constructor
        · rintro ⟨e, he, hne⟩
          injection he with hh
          exact absurd hh.symm hne
        · rintro (⟨osG, tsG, hos, _⟩ | ⟨osG, hos, _⟩ | ⟨_, tsG, hts, _⟩)
          · exact Option.noConfusion hos
          · exact Option.noConfusion hos
          · exact Option.noConfusion hts
    | some ts =>
      have hnn : ¬(ts? = none ∧ out? = none) := by
        rintro ⟨a, b⟩
        subst a; subst b
        simp [effTarget] at hE
      by_cases hlen : ts.length ≤ is.length
      · have hok := ct_none_some_ok is ts hlen
        constructor
        · constructor
          · intro hcon; exact absurd hcon (hok _)
          · rintro ⟨_, hn1, hn2⟩; exact absurd ⟨hn1, hn2⟩ hnn
        · constructor
          · rintro ⟨e, he, _⟩; exact absurd he (hok e)
          · rintro (⟨osG, tsG, hos, _⟩ | ⟨osG, hos, _⟩ | ⟨_, tsG, hts, hgt⟩)
            · exact Option.noConfusion hos
            · exact Option.noConfusion hos
            · injection hts with hh
              subst hh
              omega
      · have herr := ct_none_some_err is ts (by omega)
        constructor
        · rw [herr]
          constructor
          · intro hcon
            injection hcon with hh
            exact CTError.noConfusion hh
          · rintro ⟨_, hn1, hn2⟩; exact absurd ⟨hn1, hn2⟩ hnn
        · constructor
          · intro _
            exact Or.inr (Or.inr ⟨rfl, ts, rfl, by omega⟩)
          · intro _
            exact ⟨CTError.indicesMismatch, herr, by intro hh; cases hh⟩
  | some os =>
    cases hE : effTarget ts? out? with
    | none =>
      by_cases hk : os.length = 0 ∨ os.length = is.length
      · have hok := ct_some_ok is os none (fun tsG h => Option.noConfusion h) hk
        constructor
        · constructor
          · intro hcon; exact absurd hcon (hok _)
          · rintro ⟨hn, _, _⟩; exact Option.noConfusion hn
        · constructor
          · rintro ⟨e, he, _⟩; exact absurd he (hok e)
          · rintro (⟨osG, tsG, _, hts, _⟩ | ⟨osG, hos, _, hk0, hkn⟩ | ⟨hn, _⟩)
            · exact Option.noConfusion hts
            · injection hos with hh
              subst hh
              rcases hk with h | h <;> omega
            · exact Option.noConfusion hn
      · push_neg at hk
        obtain ⟨e, he, hne⟩ := ct_some_err is os none (fun tsG h => Option.noConfusion h)
          hk.1 hk.2
        constructor
        · constructor
          · intro hcon
            have := he.symm.trans hcon
            injection this with hh
            exact (hne hh).elim
          · rintro ⟨hn, _, _⟩; exact Option.noConfusion hn
        · constructor
          · intro _
            exact Or.inr (Or.inl ⟨os, rfl, fun tsG h => Option.noConfusion h, hk.1, hk.2⟩)
          · intro _
            exact ⟨e, he, hne⟩
    | some ts =>
      by_cases hml : ts.length = os.length
      · have hcompat : ∀ tsG : List ℤ, some ts = some tsG → tsG.length = os.length := by
          intro tsG h
          injection h with hh
          subst hh
          exact hml
        by_cases hk : os.length = 0 ∨ os.length = is.length
        · have hok := ct_some_ok is os (some ts) hcompat hk
          constructor
          · constructor
            · intro hcon; exact absurd hcon (hok _)
            · rintro ⟨hn, _, _⟩; exact Option.noConfusion hn
          · constructor
            · rintro ⟨e, he, _⟩; exact absurd he (hok e)
            · rintro (⟨osG, tsG, hos, hts, hne'⟩ | ⟨osG, hos, _, hk0, hkn⟩ | ⟨hn, _⟩)
              · injection hos with h1
                injection hts with h2
                subst h1; subst h2
                omega
              · injection hos with h1
                subst h1
                rcases hk with h | h <;> omega
              · exact Option.noConfusion hn
        · push_neg at hk
          obtain ⟨e, he, hne⟩ := ct_some_err is os (some ts) hcompat hk.1 hk.2
          constructor
          · constructor
            · intro hcon
              have := he.symm.trans hcon
              injection this with hh
              exact (hne hh).elim
            · rintro ⟨hn, _, _⟩; exact Option.noConfusion hn
          · constructor
            · intro _
              exact Or.inr (Or.inl ⟨os, rfl, hcompat, hk.1, hk.2⟩)
            · intro _
              exact ⟨e, he, hne⟩
      · have hmm := ct_some_mismatch is os ts (by omega)
        constructor
        · rw [hmm]
          constructor
          · intro hcon
            injection hcon with hh
            exact CTError.noConfusion hh
          · rintro ⟨hn, _, _⟩; exact Option.noConfusion hn
        · constructor
          · intro _
            exact Or.inl ⟨os, ts, rfl, rfl, by omega⟩
          · intro _
            exact ⟨CTError.offsetTargetMismatch, hmm, by intro hh; cases hh⟩

/-- Witness for C6: the characterization applied at a concrete input — with
all three of offsets, target shape and out omitted, `crop_transform` raises
the invalid-arguments error. -/
theorem crop_transform_validation_witness :
    crop_transform [5, 6, 7] none none none = Except.error CTError.invalidArgs :=
  (crop_transform_validation [5, 6, 7] none none none).1.mpr ⟨rfl, rfl, rfl⟩

/-- **C6 (counterexample).** For a 4-D image with offsets and target shape
both of length 3 — equal lengths, and offsets not longer than the image
dimensionality, so the claim predicts no argument-validation error —
`crop_transform` nevertheless raises a shape-mismatch error (offsets shorter
than the image rank make the internally assembled full target shape, which
includes the batch dimension, disagree in length with the offsets). -/
theorem crop_transform_validation_counterexample :
    crop_transform [2, 2, 2, 2] (some [0, 0, 0]) (some [2, 2, 2]) none =
      Except.error CTError.indicesMismatch ∧
    ([0, 0, 0] : List ℤ).length = ([2, 2, 2] : List ℤ).length ∧
    ¬ (([0, 0, 0] : List ℤ).length > ([2, 2, 2, 2] : List ℕ).length) := by
  refine ⟨by decide, by decide, by decide⟩

/-! ### bounding_volume (`CerebNet/datasets/utils.py` lines 200-230)

The source projects the non-zero mask onto each axis with `np.any`, takes the
first and last indices where the projection is true, expands the inclusive
`[min, max]` pair by `d = target - (max - min)` split as `(d // 2, d - d // 2)`
and clamps to `[0, extent]`.  `np.where(...)[0][[0, -1]]` requires at least
one non-zero voxel; the model defaults to 0 on an all-zero volume. -/

/-- `np.any(mask, axis=(1,2))` at index `x`. -/
def anyYZ (V : Vol3 ℤ) (x : ℕ) : Bool :=
  (List.range V.s1).any fun y => (List.range V.s2).any fun z => decide (V.data x y z ≠ 0)

/-- `np.any(mask, axis=(0,2))` at index `y`. -/
def anyXZ (V : Vol3 ℤ) (y : ℕ) : Bool :=
  (List.range V.s0).any fun x => (List.range V.s2).any fun z => decide (V.data x y z ≠ 0)

/-- `np.any(mask, axis=(0,1))` at index `z`. -/
def anyXY (V : Vol3 ℤ) (z : ℕ) : Bool :=
  (List.range V.s0).any fun x => (List.range V.s1).any fun y => decide (V.data x y z ≠ 0)

/-- `np.where` of an axis projection: the (sorted) indices where it is true. -/
def nzX (V : Vol3 ℤ) : List ℕ := (List.range V.s0).filter (anyYZ V)

def nzY (V : Vol3 ℤ) : List ℕ := (List.range V.s1).filter (anyXZ V)

def nzZ (V : Vol3 ℤ) : List ℕ := (List.range V.s2).filter (anyXY V)

/-- First index of the non-zero extent on one axis (`[0]` of `np.where`). -/
def nzLow (l : List ℕ) : ℕ := l.head?.getD 0

/-- Last index of the non-zero extent on one axis (`[-1]` of `np.where`). -/
def nzHigh (l : List ℕ) : ℕ := l.getLast?.getD 0

/-- One axis of `bounding_volume`: expand the inclusive pair `(m, M)` by
`d = t - (M - m)` as `(d // 2, d - d // 2)` and clamp into `[0, ext]`. -/
def bvAxis (m M t ext : ℕ) : ℤ × ℤ :=
  (max 0 ((m : ℤ) - ((t : ℤ) - ((M : ℤ) - m)).fdiv 2),
    min (ext : ℤ) ((M : ℤ) + (((t : ℤ) - ((M : ℤ) - m)) -
      ((t : ℤ) - ((M : ℤ) - m)).fdiv 2)))

/-- `bounding_volume(img, target_img_size)`: the per-axis clamped ranges. -/
def bounding_volume (V : Vol3 ℤ) (t0 t1 t2 : ℕ) : (ℤ × ℤ) × (ℤ × ℤ) × (ℤ × ℤ) :=
  (bvAxis (nzLow (nzX V)) (nzHigh (nzX V)) t0 V.s0,
    bvAxis (nzLow (nzY V)) (nzHigh (nzY V)) t1 V.s1,
    bvAxis (nzLow (nzZ V)) (nzHigh (nzZ V)) t2 V.s2)

theorem nzLow_le_of_mem {l : List ℕ} (hl : l.Pairwise (· < ·)) {a : ℕ} (ha : a ∈ l) :
    nzLow l ≤ a := by
  induction l with
  | nil => cases ha
  | cons b t _ =>
    rcases List.mem_cons.mp ha with rfl | ht
    · exact Nat.le_refl a
    · exact Nat.le_of_lt ((List.pairwise_cons.mp hl).1 a ht)

theorem le_nzHigh_of_mem {l : List ℕ} (hl : l.Pairwise (· < ·)) {a : ℕ} (ha : a ∈ l) :
    a ≤ nzHigh l := by
  induction l with
  | nil => cases ha
  | cons b t ih =>
    cases t with
    | nil =>
      rcases List.mem_cons.mp ha with rfl | ht
      · exact Nat.le_refl a
      · cases ht
    | cons c t' =>
      have hgl : nzHigh (b :: c :: t') = nzHigh (c :: t') := by
        simp [nzHigh, List.getLast?_cons_cons]
      rw [hgl]
      rcases List.mem_cons.mp ha with rfl | ht
      · obtain ⟨g, hg⟩ : ∃ g, (c :: t').getLast? = some g := by
          cases hgl' : (c :: t').getLast? with
          | none => simp [List.getLast?_cons_cons] at hgl'
          | some g => exact ⟨g, rfl⟩
        have hgm : g ∈ c :: t' := List.mem_of_mem_getLast? (by rw [hg]; rfl)
        have : a < g := (List.pairwise_cons.mp hl).1 g hgm
        simp only [nzHigh, hg, Option.getD_some]
        omega
      · exact ih (List.pairwise_cons.mp hl).2 ht

theorem nzHigh_mem {l : List ℕ} (hne : l ≠ []) : nzHigh l ∈ l := by
  obtain ⟨g, hg⟩ := List.getLast?_isSome.mpr hne |> Option.isSome_iff_exists.mp
  rw [nzHigh, hg]
  exact List.mem_of_mem_getLast? (by rw [hg]; rfl)

theorem bvAxis_facts {m M t ext x : ℕ} (hmx : m ≤ x) (hxM : x ≤ M) (hMe : M < ext)
    (ht : M - m < t) :
    (bvAxis m M t ext).1 ≤ (x : ℤ) ∧ (x : ℤ) < (bvAxis m M t ext).2 ∧
      0 ≤ (bvAxis m M t ext).1 ∧ (bvAxis m M t ext).2 ≤ (ext : ℤ) := by
  unfold bvAxis
  simp only
  rw [Int.fdiv_eq_ediv _ (by norm_num)]
  refine ⟨by omega, by omega, by omega, by omega⟩

theorem bvAxis_bounds (m M t ext : ℕ) :
    0 ≤ (bvAxis m M t ext).1 ∧ (bvAxis m M t ext).2 ≤ (ext : ℤ) := by
  unfold bvAxis
  simp only
  rw [Int.fdiv_eq_ediv _ (by norm_num)]
  refine ⟨by omega, by omega⟩

/-- **C7 (amended).** Containment of the bounding-volume ranges: provided each
axis's target size exceeds the (inclusive) `max - min` difference of the
non-zero extent, every non-zero voxel's index lies inside the returned
half-open range on each axis; and unconditionally the returned ranges never
extend below 0 or beyond the axis extent. -/
theorem bounding_volume_containment (V : Vol3 ℤ) (t0 t1 t2 : ℕ) :
    (nzHigh (nzX V) - nzLow (nzX V) < t0 →
      nzHigh (nzY V) - nzLow (nzY V) < t1 →
      nzHigh (nzZ V) - nzLow (nzZ V) < t2 →
      ∀ x y z, x < V.s0 → y < V.s1 → z < V.s2 → V.data x y z ≠ 0 →
      ((bounding_volume V t0 t1 t2).1.1 ≤ (x : ℤ) ∧
        (x : ℤ) < (bounding_volume V t0 t1 t2).1.2) ∧
      ((bounding_volume V t0 t1 t2).2.1.1 ≤ (y : ℤ) ∧
        (y : ℤ) < (bounding_volume V t0 t1 t2).2.1.2) ∧
      ((bounding_volume V t0 t1 t2).2.2.1 ≤ (z : ℤ) ∧
        (z : ℤ) < (bounding_volume V t0 t1 t2).2.2.2)) ∧
    (0 ≤ (bounding_volume V t0 t1 t2).1.1 ∧
      (bounding_volume V t0 t1 t2).1.2 ≤ (V.s0 : ℤ) ∧
      0 ≤ (bounding_volume V t0 t1 t2).2.1.1 ∧
      (bounding_volume V t0 t1 t2).2.1.2 ≤ (V.s1 : ℤ) ∧
      0 ≤ (bounding_volume V t0 t1 t2).2.2.1 ∧
      (bounding_volume V t0 t1 t2).2.2.2 ≤ (V.s2 : ℤ)) := by
  constructor
  · intro ht0 ht1 ht2 x y z hx hy hz hnz
    have hax : anyYZ V x = true :=
      List.any_eq_true.mpr ⟨y, List.mem_range.mpr hy,
        List.any_eq_true.mpr ⟨z, List.mem_range.mpr hz, decide_eq_true hnz⟩⟩
    have hay : anyXZ V y = true :=
      List.any_eq_true.mpr ⟨x, List.mem_range.mpr hx,
        List.any_eq_true.mpr ⟨z, List.mem_range.mpr hz, decide_eq_true hnz⟩⟩
    have haz : anyXY V z = true :=
      List.any_eq_true.mpr ⟨x, List.mem_range.mpr hx,
        List.any_eq_true.mpr ⟨y, List.mem_range.mpr hy, decide_eq_true hnz⟩⟩
    have hxm : x ∈ nzX V := List.mem_filter.mpr ⟨List.mem_range.mpr hx, hax⟩
    have hym : y ∈ nzY V := List.mem_filter.mpr ⟨List.mem_range.mpr hy, hay⟩
    have hzm : z ∈ nzZ V := List.mem_filter.mpr ⟨List.mem_range.mpr hz, haz⟩
    have hpx : (nzX V).Pairwise (· < ·) := (List.pairwise_lt_range V.s0).filter _
    have hpy : (nzY V).Pairwise (· < ·) := (List.pairwise_lt_range V.s1).filter _
    have hpz : (nzZ V).Pairwise (· < ·) := (List.pairwise_lt_range V.s2).filter _
    have hMx : nzHigh (nzX V) < V.s0 := List.mem_range.mp
      (List.mem_filter.mp (nzHigh_mem (List.ne_nil_of_mem hxm))).1
    have hMy : nzHigh (nzY V) < V.s1 := List.mem_range.mp
      (List.mem_filter.mp (nzHigh_mem (List.ne_nil_of_mem hym))).1
    have hMz : nzHigh (nzZ V) < V.s2 := List.mem_range.mp
      (List.mem_filter.mp (nzHigh_mem (List.ne_nil_of_mem hzm))).1
    have f0 := bvAxis_facts (nzLow_le_of_mem hpx hxm) (le_nzHigh_of_mem hpx hxm) hMx ht0
    have f1 := bvAxis_facts (nzLow_le_of_mem hpy hym) (le_nzHigh_of_mem hpy hym) hMy ht1
    have f2 := bvAxis_facts (nzLow_le_of_mem hpz hzm) (le_nzHigh_of_mem hpz hzm) hMz ht2
    exact ⟨⟨f0.1, f0.2.1⟩, ⟨f1.1, f1.2.1⟩, ⟨f2.1, f2.2.1⟩⟩
  · exact ⟨(bvAxis_bounds _ _ _ _).1, (bvAxis_bounds _ _ _ _).2,
      (bvAxis_bounds _ _ _ _).1, (bvAxis_bounds _ _ _ _).2,
      (bvAxis_bounds _ _ _ _).1, (bvAxis_bounds _ _ _ _).2⟩

/-- Witness for C7: the containment theorem applied to the 3x1x1 volume whose
only non-zero voxel is at the origin, with target size (2,1,1). -/
theorem bounding_volume_containment_witness :
    ((bounding_volume (⟨3, 1, 1, fun x _ _ => if x = 0 then 1 else 0⟩ : Vol3 ℤ) 2 1 1).1.1
        ≤ ((0 : ℕ) : ℤ) ∧
      ((0 : ℕ) : ℤ) <
        (bounding_volume (⟨3, 1, 1, fun x _ _ => if x = 0 then 1 else 0⟩ : Vol3 ℤ) 2 1 1).1.2) ∧
    ((bounding_volume (⟨3, 1, 1, fun x _ _ => if x = 0 then 1 else 0⟩ : Vol3 ℤ) 2 1 1).2.1.1
        ≤ ((0 : ℕ) : ℤ) ∧
      ((0 : ℕ) : ℤ) <
        (bounding_volume (⟨3, 1, 1, fun x _ _ => if x = 0 then 1 else 0⟩ : Vol3 ℤ) 2 1 1).2.1.2) ∧
    ((bounding_volume (⟨3, 1, 1, fun x _ _ => if x = 0 then 1 else 0⟩ : Vol3 ℤ) 2 1 1).2.2.1
        ≤ ((0 : ℕ) : ℤ) ∧
      ((0 : ℕ) : ℤ) <
        (bounding_volume (⟨3, 1, 1, fun x _ _ => if x = 0 then 1 else 0⟩ : Vol3 ℤ) 2 1 1).2.2.2) :=
  (bounding_volume_containment (⟨3, 1, 1, fun x _ _ => if x = 0 then 1 else 0⟩ : Vol3 ℤ)
      2 1 1).1 (by decide) (by decide) (by decide)
    0 0 0 (by decide) (by decide) (by decide) (by decide)

/-- **C7 (counterexample).** For the 2x1x1 volume that is non-zero everywhere
and target size (1,1,1), the returned range on the first axis is `[0, 1)`: the
non-zero voxel at index 1 lies outside it, so for this target size the ranges
do not contain the tight non-zero extent. -/
theorem bounding_volume_containment_counterexample :
    (⟨2, 1, 1, fun _ _ _ => 1⟩ : Vol3 ℤ).data 1 0 0 ≠ 0 ∧ 1 < 2 ∧
      ¬ (((1 : ℕ) : ℤ) <
        (bounding_volume (⟨2, 1, 1, fun _ _ _ => 1⟩ : Vol3 ℤ) 1 1 1).1.2) := by
  refine ⟨by decide, by decide, by decide⟩

/-! ### bounding_volume_offset (`CerebNet/datasets/utils.py` lines 160-197) -/

/-- Python `round` applied to the half-integer `n / 2`: round half to even. -/
def roundHalf2 (n : ℤ) : ℤ :=
  if n % 2 = 0 then n / 2
  else if ((n - 1) / 2) % 2 = 0 then (n - 1) / 2 else (n - 1) / 2 + 1

/-- `bounding_volume_offset(bbox, target_img_size, image_shape)` for a
precomputed bounding-box sequence `bbox = (mins ++ maxs)`: per axis the center
is `(min + max) / 2` and the raw offset `max(0, int(round(center -
target / 2)))`; the quantity `center - target / 2` is the half-integer
`(min + max - target) / 2` (float arithmetic on these values is exact), so the
model rounds it with `roundHalf2`.  When the image shape is known the offset
is re-clamped to `min(max(0, o), extent - target)` per axis and the call fails
when any clamped offset is negative. -/
def bounding_volume_offset (bbox : List ℤ) (target : List ℕ)
    (imageShape : Option (List ℕ)) : Except String (List ℤ) :=
  let mins := bbox.take (bbox.length / 2)
  let maxs := bbox.drop (bbox.length / 2)
  let offset := List.zipWith (fun s t => max 0 (roundHalf2 (s - t)))
    (List.zipWith (fun mi ma => mi + ma) mins maxs) (target.map (fun n : ℕ => (n : ℤ)))
  match imageShape with
  | none => Except.ok offset
  | some is =>
      let offset2 := zip3With (fun o t s => min (max 0 o) (s - t))
        offset (target.map (fun n : ℕ => (n : ℤ))) (is.map (fun n : ℕ => (n : ℤ)))
      if offset2.any (fun o => decide (o < 0)) then
        Except.error "Insufficient image size"
      else Except.ok offset2

theorem zipWith_getD {α β γ : Type} (f : α → β → γ) (da : α) (db : β) (dc : γ) :
    ∀ (as : List α) (bs : List β) (k : ℕ), k < as.length → k < bs.length →
      (List.zipWith f as bs).getD k dc = f (as.getD k da) (bs.getD k db) := by
  intro as
  induction as with
  | nil => intro bs k h; simp at h
  | cons a as' ih =>
    intro bs k h1 h2
    cases bs with
    | nil => simp at h2
    | cons b bs' =>
      cases k with
      | zero => rfl
      | succ k' =>
        simpa using ih bs' k' (by simpa using h1) (by simpa using h2)

theorem zip3With_getD {α β γ δ : Type} (f : α → β → γ → δ) (da : α) (db : β) (dc : γ)
    (dd : δ) :
    ∀ (as : List α) (bs : List β) (cs : List γ) (k : ℕ),
      k < as.length → k < bs.length → k < cs.length →
      (zip3With f as bs cs).getD k dd = f (as.getD k da) (bs.getD k db) (cs.getD k dc) := by
  intro as
  induction as with
  | nil => intro bs cs k h; simp at h
  | cons a as' ih =>
    intro bs cs k h1 h2 h3
    cases bs with
    | nil => simp at h2
    | cons b bs' =>
      cases cs with
      | nil => simp at h3
      | cons c cs' =>
        cases k with
        | zero => rfl
        | succ k' =>
          simpa [zip3With] using ih bs' cs' k' (by simpa using h1) (by simpa using h2)
            (by simpa using h3)

theorem getD_map_cast (l : List ℕ) (k : ℕ) (hk : k < l.length) :
    (l.map (fun n : ℕ => (n : ℤ))).getD k 0 = ((l.getD k 0 : ℕ) : ℤ) := by
  rw [List.getD_eq_getElem _ _ (by rw [List.length_map]; exact hk), List.getElem_map,
    List.getD_eq_getElem _ _ hk]

/-- **C10 (confirmed).** When `bounding_volume_offset` receives a precomputed
bounding-box sequence and no image shape, it never fails, every returned
offset is exactly `max(0, round(center - target/2))` computed from the raw
bounding box — clamped below at 0 only, with no upper clamp against any image
extent — and in particular every returned offset is non-negative. -/
theorem bounding_volume_offset_no_clamp (bbox : List ℤ) (target : List ℕ) :
    ∃ r, bounding_volume_offset bbox target none = Except.ok r ∧
      (∀ k, k < r.length →
        r.getD k 0 = max 0 (roundHalf2
          (bbox.getD k 0 + bbox.getD (bbox.length / 2 + k) 0 - target.getD k 0))) ∧
      (∀ o ∈ r, 0 ≤ o) := by
  refine ⟨_, rfl, ?_, ?_⟩
  · intro k hk
    rw [List.length_zipWith, List.length_zipWith, List.length_take, List.length_drop,
      List.length_map] at hk
    rw [zipWith_getD (fun s t => max 0 (roundHalf2 (s - t))) 0 0 0 _ _ k
        (by rw [List.length_zipWith, List.length_take, List.length_drop]; omega)
        (by rw [List.length_map]; omega),
      zipWith_getD (fun mi ma => mi + ma) 0 0 0 _ _ k
        (by rw [List.length_take]; omega) (by rw [List.length_drop]; omega)]
    have e1 : (bbox.take (bbox.length / 2)).getD k 0 = bbox.getD k 0 := by
      have hkt : k < (bbox.take (bbox.length / 2)).length := by
        rw [List.length_take]; omega
      have hkb : k < bbox.length := by omega
      rw [List.getD_eq_getElem _ _ hkt, List.getD_eq_getElem _ _ hkb]
      exact List.getElem_take _
    have e2 : (bbox.drop (bbox.length / 2)).getD k 0 =
        bbox.getD (bbox.length / 2 + k) 0 := by
      have hkd : k < (bbox.drop (bbox.length / 2)).length := by
        rw [List.length_drop]; omega
      have hkb : bbox.length / 2 + k < bbox.length := by omega
      rw [List.getD_eq_getElem _ _ hkd, List.getD_eq_getElem _ _ hkb]
      exact List.getElem_drop _
    rw [e1, e2, getD_map_cast target k (by omega)]
  · intro o ho
    obtain ⟨k, hk, hko⟩ := List.mem_iff_getElem.mp ho
    rw [← hko, List.getElem_zipWith]
    exact le_max_left 0 _

/-- **C8 (confirmed).** Clamped-offset correctness of `bounding_volume_offset`
with a known image shape (bounding box given as a mins-then-maxs sequence,
image shape and target of matching rank): if every axis's image extent is at
least the target size, the call succeeds and every returned offset is
non-negative with `offset + targetSize ≤ extent`; if any axis's image extent
is smaller than the target size, it raises the insufficient-size error. -/
theorem bounding_volume_offset_clamped (bbox : List ℤ) (target is0 : List ℕ)
    (hb : bbox.length = 2 * target.length) (hi : is0.length = target.length) :
    ((∀ k, k < target.length → target.getD k 0 ≤ is0.getD k 0) →
      ∃ r, bounding_volume_offset bbox target (some is0) = Except.ok r ∧
        r.length = target.length ∧
        ∀ k, k < target.length →
          0 ≤ r.getD k 0 ∧ r.getD k 0 + (target.getD k 0 : ℤ) ≤ (is0.getD k 0 : ℤ)) ∧
    ((∃ k, k < target.length ∧ is0.getD k 0 < target.getD k 0) →
      bounding_volume_offset bbox target (some is0) =
        Except.error "Insufficient image size") := by
  have hhalf : bbox.length / 2 = target.length := by omega
  have hmins : (bbox.take (bbox.length / 2)).length = target.length := by
    rw [List.length_take]; omega
  have hmaxs : (bbox.drop (bbox.length / 2)).length = target.length := by
    rw [List.length_drop]; omega
  have hoff : (List.zipWith (fun s t => max 0 (roundHalf2 (s - t)))
      (List.zipWith (fun mi ma => mi + ma)
        (bbox.take (bbox.length / 2)) (bbox.drop (bbox.length / 2)))
      (target.map (fun n : ℕ => (n : ℤ)))).length = target.length := by
    rw [List.length_zipWith, List.length_zipWith, hmins, hmaxs, List.length_map]
    omega
  have ho2 : (zip3With (fun o t s => min (max 0 o) (s - t))
      (List.zipWith (fun s t => max 0 (roundHalf2 (s - t)))
        (List.zipWith (fun mi ma => mi + ma)
          (bbox.take (bbox.length / 2)) (bbox.drop (bbox.length / 2)))
        (target.map (fun n : ℕ => (n : ℤ))))
      (target.map (fun n : ℕ => (n : ℤ)))
      (is0.map (fun n : ℕ => (n : ℤ)))).length = target.length := by
    rw [zip3With_length, hoff, List.length_map, List.length_map]
    omega
  have hgetD : ∀ k, k < target.length →
      (zip3With (fun o t s => min (max 0 o) (s - t))
        (List.zipWith (fun s t => max 0 (roundHalf2 (s - t)))
          (List.zipWith (fun mi ma => mi + ma)
            (bbox.take (bbox.length / 2)) (bbox.drop (bbox.length / 2)))
          (target.map (fun n : ℕ => (n : ℤ))))
        (target.map (fun n : ℕ => (n : ℤ)))
        (is0.map (fun n : ℕ => (n : ℤ)))).getD k 0 =
      min (max 0 ((List.zipWith (fun s t => max 0 (roundHalf2 (s - t)))
          (List.zipWith (fun mi ma => mi + ma)
            (bbox.take (bbox.length / 2)) (bbox.drop (bbox.length / 2)))
          (target.map (fun n : ℕ => (n : ℤ)))).getD k 0))
        (((is0.getD k 0 : ℕ) : ℤ) - ((target.getD k 0 : ℕ) : ℤ)) := by
    intro k hk
    rw [zip3With_getD _ 0 0 0 0 _ _ _ k (by omega) (by rw [List.length_map]; omega)
        (by rw [List.length_map]; omega),
      getD_map_cast target k (by omega), getD_map_cast is0 k (by omega)]
  constructor
  · intro hts
    have hnoneg : ¬ ((zip3With (fun o t s => min (max 0 o) (s - t))
        (List.zipWith (fun s t => max 0 (roundHalf2 (s - t)))
          (List.zipWith (fun mi ma => mi + ma)
            (bbox.take (bbox.length / 2)) (bbox.drop (bbox.length / 2)))
          (target.map (fun n : ℕ => (n : ℤ))))
        (target.map (fun n : ℕ => (n : ℤ)))
        (is0.map (fun n : ℕ => (n : ℤ)))).any (fun o => decide (o < 0)) = true) := by
      intro hc
      obtain ⟨o, ho, hod⟩ := List.any_eq_true.mp hc
      obtain ⟨k, hk, hko⟩ := List.mem_iff_getElem.mp ho
      have hk' : k < target.length := by rw [ho2] at hk; exact hk
      have hv := hgetD k hk'
      rw [List.getD_eq_getElem _ _ (by rw [ho2]; exact hk'), hko] at hv
      have hod' := of_decide_eq_true hod
      have hts' := hts k hk'
      omega
    refine ⟨_, ?_, ho2, ?_⟩
    · simp only [bounding_volume_offset]
      rw [if_neg hnoneg]
    · intro k hk
      have hv := hgetD k hk
      have hts' := hts k hk
      rw [hv]
      omega
  · rintro ⟨k, hk, hlt⟩
    have hpos : ((zip3With (fun o t s => min (max 0 o) (s - t))
        (List.zipWith (fun s t => max 0 (roundHalf2 (s - t)))
          (List.zipWith (fun mi ma => mi + ma)
            (bbox.take (bbox.length / 2)) (bbox.drop (bbox.length / 2)))
          (target.map (fun n : ℕ => (n : ℤ))))
        (target.map (fun n : ℕ => (n : ℤ)))
        (is0.map (fun n : ℕ => (n : ℤ)))).any (fun o => decide (o < 0)) = true) := by
      apply List.any_eq_true.mpr
      refine ⟨(zip3With (fun o t s => min (max 0 o) (s - t))
        (List.zipWith (fun s t => max 0 (roundHalf2 (s - t)))
          (List.zipWith (fun mi ma => mi + ma)
            (bbox.take (bbox.length / 2)) (bbox.drop (bbox.length / 2)))
          (target.map (fun n : ℕ => (n : ℤ))))
        (target.map (fun n : ℕ => (n : ℤ)))
        (is0.map (fun n : ℕ => (n : ℤ)))).getD k 0, ?_, ?_⟩
      · rw [List.getD_eq_getElem _ _ (by rw [ho2]; exact hk)]
        exact List.getElem_mem _
      · rw [hgetD k hk]
        exact decide_eq_true (by omega)
    simp only [bounding_volume_offset]
    rw [if_pos hpos]

/-- Witness for C8: the clamped-offset theorem applied to the bounding box
(1,1,1)-(3,3,3), target size (2,2,2) and image shape (4,4,4). -/
theorem bounding_volume_offset_clamped_witness :
    ∃ r, bounding_volume_offset [1, 1, 1, 3, 3, 3] [2, 2, 2] (some [4, 4, 4]) =
        Except.ok r ∧
      r.length = ([2, 2, 2] : List ℕ).length ∧
      ∀ k, k < ([2, 2, 2] : List ℕ).length →
        0 ≤ r.getD k 0 ∧ r.getD k 0 + (([2, 2, 2] : List ℕ).getD k 0 : ℤ) ≤
          (([4, 4, 4] : List ℕ).getD k 0 : ℤ) :=
  (bounding_volume_offset_clamped [1, 1, 1, 3, 3, 3] [2, 2, 2] [4, 4, 4]
    (by decide) (by decide)).1 (by decide)

/-- Witness for C10: the no-clamp theorem applied to the bounding box
(0,0,0)-(4,5,6) and target size (2,2,2), with the image shape omitted. -/
theorem bounding_volume_offset_no_clamp_witness :
    ∃ r, bounding_volume_offset [0, 0, 0, 4, 5, 6] [2, 2, 2] none = Except.ok r ∧
      (∀ k, k < r.length →
        r.getD k 0 = max 0 (roundHalf2
          (([0, 0, 0, 4, 5, 6] : List ℤ).getD k 0 +
            ([0, 0, 0, 4, 5, 6] : List ℤ).getD
              (([0, 0, 0, 4, 5, 6] : List ℤ).length / 2 + k) 0 -
            ([2, 2, 2] : List ℕ).getD k 0))) ∧
      (∀ o ∈ r, 0 ≤ o) :=
  bounding_volume_offset_no_clamp [0, 0, 0, 4, 5, 6] [2, 2, 2]

/-! ### readLTA matrix assembly (`CerebNet/datasets/utils.py` lines 522-554)
and load_talairach_coordinates (lines 557-575)

`readLTA` assembles `d["src"]` (and `d["dst"]`) as
`np.concatenate((np.concatenate((np.c_[xras], np.c_[yras], np.c_[zras],
np.c_[cras]), axis=1), np.array([0., 0., 0., 1.], ndmin=2)), axis=0)`:
the three orientation vectors and the center placed as columns over a
`[0, 0, 0, 1]` bottom row.  No voxel-size scaling is applied.
`load_talairach_coordinates` asserts `type == 1`, composes
`m = lta @ vox2ras`, applies `m` to every homogeneous voxel index, drops the
homogeneous component and casts the result to `np.float16`.  Python floats
are modelled as exact rationals; the `float16` cast is modelled as rounding
to an 11-bit significand with round-half-to-even (overflow and subnormals
are not modelled; no claim exercises them). -/

/-- The 4x4 volume-to-world matrix assembled by `readLTA` from the scanned
vectors: columns `xras`, `yras`, `zras`, `cras`, bottom row `[0,0,0,1]`. -/
def readLTA_vol_matrix (xras yras zras cras : Fin 3 → ℚ) (r c : Fin 4) : ℚ :=
  if hr : r.1 < 3 then
    if c.1 = 0 then xras ⟨r.1, hr⟩
    else if c.1 = 1 then yras ⟨r.1, hr⟩
    else if c.1 = 2 then zras ⟨r.1, hr⟩
    else cras ⟨r.1, hr⟩
  else if c.1 = 3 then 1 else 0

/-- Modelled from the spec: the volume-to-world matrix the specification
describes, whose 3x3 orientation block is additionally scaled by the
voxel-size vector (`readLTA` itself applies no such scaling). -/
def spec_vol_matrix (voxelsize xras yras zras cras : Fin 3 → ℚ) (r c : Fin 4) : ℚ :=
  if hr : r.1 < 3 then
    if c.1 = 0 then voxelsize 0 * xras ⟨r.1, hr⟩
    else if c.1 = 1 then voxelsize 1 * yras ⟨r.1, hr⟩
    else if c.1 = 2 then voxelsize 2 * zras ⟨r.1, hr⟩
    else cras ⟨r.1, hr⟩
  else if c.1 = 3 then 1 else 0

/-- **C3 (amended).** The 4x4 matrices assembled by `readLTA` place the
xras/yras/zras orientation vectors as columns *unscaled* — no voxel-size
scaling is applied — with the center vector `cras` as the translation column
and a `[0,0,0,1]` bottom row. -/
theorem readLTA_matrix_structure (xras yras zras cras : Fin 3 → ℚ) :
    (∀ (r : Fin 4) (hr : r.1 < 3),
      readLTA_vol_matrix xras yras zras cras r 0 = xras ⟨r.1, hr⟩ ∧
      readLTA_vol_matrix xras yras zras cras r 1 = yras ⟨r.1, hr⟩ ∧
      readLTA_vol_matrix xras yras zras cras r 2 = zras ⟨r.1, hr⟩ ∧
      readLTA_vol_matrix xras yras zras cras r 3 = cras ⟨r.1, hr⟩) ∧
    (readLTA_vol_matrix xras yras zras cras 3 0 = 0 ∧
      readLTA_vol_matrix xras yras zras cras 3 1 = 0 ∧
      readLTA_vol_matrix xras yras zras cras 3 2 = 0 ∧
      readLTA_vol_matrix xras yras zras cras 3 3 = 1) := by
  constructor
  · intro r hr
    refine ⟨?_, ?_, ?_, ?_⟩ <;> (simp only [readLTA_vol_matrix]; rw [dif_pos hr]; rfl)
  · have hne : ¬ ((3 : Fin 4).1 < 3) := by decide
    refine ⟨?_, ?_, ?_, ?_⟩ <;> (simp only [readLTA_vol_matrix]; rw [dif_neg hne]; decide)

/-- Witness for C3: the structure theorem applied at row 0 of the matrix
assembled from concrete axis-aligned vectors. -/
theorem readLTA_matrix_structure_witness :
    readLTA_vol_matrix (fun i => if i.1 = 0 then 1 else 0)
      (fun i => if i.1 = 1 then 1 else 0) (fun i => if i.1 = 2 then 1 else 0)
      (fun _ => 0) 0 0 =
      (fun i : Fin 3 => if i.1 = 0 then (1 : ℚ) else 0) ⟨(0 : Fin 4).1, by decide⟩ :=
  ((readLTA_matrix_structure (fun i => if i.1 = 0 then 1 else 0)
    (fun i => if i.1 = 1 then 1 else 0) (fun i => if i.1 = 2 then 1 else 0)
    (fun _ => 0)).1 0 (by decide)).1

/-- **C3 (counterexample).** With axis-aligned orientation vectors, zero
center and voxel size 2, the matrix assembled by `readLTA` differs from the
voxel-size-scaled matrix the claim describes: the (0,0) entry is 1, not
2 = voxelsize * xras. -/
theorem readLTA_matrix_counterexample :
    readLTA_vol_matrix (fun i => if i.1 = 0 then 1 else 0)
        (fun i => if i.1 = 1 then 1 else 0) (fun i => if i.1 = 2 then 1 else 0)
        (fun _ => 0) 0 0 = 1 ∧
    spec_vol_matrix (fun _ => 2) (fun i => if i.1 = 0 then 1 else 0)
        (fun i => if i.1 = 1 then 1 else 0) (fun i => if i.1 = 2 then 1 else 0)
        (fun _ => 0) 0 0 = 2 ∧
    (1 : ℚ) ≠ 2 := by
  refine ⟨?_, ?_, by norm_num⟩
  · simp only [readLTA_vol_matrix]
    rw [dif_pos (by decide)]
    rfl
  · simp only [spec_vol_matrix]
    rw [dif_pos (by decide)]
    norm_num

/-- The parsed transform consumed by `load_talairach_coordinates`: its `type`
field and the 4x4 transform matrix `lta`. -/
structure LTA where
  type : ℤ
  lta : Fin 4 → Fin 4 → ℚ

/-- 4x4 matrix product (`np.matmul`). -/
def matMul4 (A B : Fin 4 → Fin 4 → ℚ) (i j : Fin 4) : ℚ :=
  A i 0 * B 0 j + A i 1 * B 1 j + A i 2 * B 2 j + A i 3 * B 3 j

/-- The 4x4 identity matrix. -/
def idMat4 (i j : Fin 4) : ℚ := if i = j then 1 else 0

/-- Round half to even on ℚ. -/
def roundHalfEvenQ (q : ℚ) : ℤ :=
  if q - ⌊q⌋ < 1 / 2 then ⌊q⌋
  else if 1 / 2 < q - ⌊q⌋ then ⌊q⌋ + 1
  else if 2 ∣ ⌊q⌋ then ⌊q⌋ else ⌊q⌋ + 1

/-- The `np.float16` cast: round to an 11-bit significand, half to even
(the step between representable values at magnitude `|q|` is
`2 ^ (⌊log2 |q|⌋ - 10)`).  Overflow to infinity and subnormal rounding are
not modelled; no claim exercises values in those ranges. -/
def npFloat16 (q : ℚ) : ℚ :=
  if q = 0 then 0
  else (2 : ℚ) ^ (Int.log 2 |q| - 10) * roundHalfEvenQ (q / (2 : ℚ) ^ (Int.log 2 |q| - 10))

/-- `load_talairach_coordinates(tala_path, img_shape, vox2ras)`: requires
`type == 1`, composes `m = lta @ vox2ras`, maps every voxel index `(x, y, z)`
(for `x < s0`, `y < s1`, `z < s2`) through `m` homogeneously, drops the
homogeneous component and casts to float16.  The dense `(s0, s1, s2, 3)`
array is represented by its pointwise evaluation. -/
def load_talairach_coordinates (tala : LTA) (s0 s1 s2 : ℕ)
    (vox2ras : Fin 4 → Fin 4 → ℚ) : Except String (ℕ → ℕ → ℕ → Fin 3 → ℚ) :=
  if tala.type ≠ 1 then Except.error "talairach not in ras2ras"
  else
    Except.ok fun x y z k =>
      npFloat16 (matMul4 tala.lta vox2ras k.castSucc 0 * x +
        matMul4 tala.lta vox2ras k.castSucc 1 * y +
        matMul4 tala.lta vox2ras k.castSucc 2 * z +
        matMul4 tala.lta vox2ras k.castSucc 3)

theorem roundHalfEvenQ_intCast (m : ℤ) : roundHalfEvenQ (m : ℚ) = m := by
  unfold roundHalfEvenQ
  rw [Int.floor_intCast, if_pos (by norm_num)]

theorem npFloat16_natCast (n : ℕ) (h : n ≤ 2048) : npFloat16 (n : ℚ) = (n : ℚ) := by
  rcases Nat.eq_zero_or_pos n with rfl | hn
  · simp [npFloat16]
  · have hq : ((n : ℚ)) ≠ 0 := by positivity
    have habs : |(n : ℚ)| = (n : ℚ) := abs_of_nonneg (by positivity)
    have hlog : Int.log 2 |(n : ℚ)| = (Nat.log 2 n : ℤ) := by
      rw [habs, Int.log_natCast]
    have hlog11 : Nat.log 2 n ≤ 11 := by
      have h1 : Nat.log 2 n ≤ Nat.log 2 2048 := Nat.log_mono_right h
      have h2 : Nat.log 2 2048 = 11 :=
        Nat.log_eq_of_pow_le_of_lt_pow (by norm_num) (by norm_num)
      omega
    unfold npFloat16
    rw [if_neg hq, hlog]
    by_cases hle : Nat.log 2 n ≤ 10
    · have hstep : ((2 : ℚ) ^ ((Nat.log 2 n : ℤ) - 10))⁻¹ =
          (2 : ℚ) ^ (((10 - Nat.log 2 n : ℕ) : ℤ)) := by
        rw [← zpow_neg]
        congr 1
        omega
      have hdiv : (n : ℚ) / (2 : ℚ) ^ ((Nat.log 2 n : ℤ) - 10) =
          (((n * 2 ^ (10 - Nat.log 2 n) : ℕ) : ℤ) : ℚ) := by
        rw [div_eq_mul_inv, hstep]
        push_cast
        rw [zpow_natCast]
      rw [hdiv, roundHalfEvenQ_intCast]
      push_cast
      rw [← zpow_natCast (2 : ℚ) (10 - Nat.log 2 n), ← mul_assoc, mul_comm
        ((2 : ℚ) ^ ((Nat.log 2 n : ℤ) - 10)) (n : ℚ), mul_assoc,
        ← zpow_add₀ (two_ne_zero)]
      rw [show ((Nat.log 2 n : ℤ) - 10) + ((10 - Nat.log 2 n : ℕ) : ℤ) = 0 by omega]
      norm_num
    · have he11 : Nat.log 2 n = 11 := by omega
      have hpow : 2 ^ 11 ≤ n := by
        have hp := Nat.pow_log_le_self 2 (by omega : n ≠ 0)
        rw [he11] at hp
        exact hp
      have hn2048 : n = 2048 := by omega
      subst hn2048
      rw [he11]
      norm_num
      rw [show (1024 : ℚ) = ((1024 : ℤ) : ℚ) by norm_num, roundHalfEvenQ_intCast]
      norm_num

theorem npFloat16_2049 : npFloat16 ((2049 : ℕ) : ℚ) = 2048 := by
  have hlog : Int.log 2 |((2049 : ℕ) : ℚ)| = (11 : ℤ) := by
    rw [abs_of_nonneg (by positivity), Int.log_natCast,
      Nat.log_eq_of_pow_le_of_lt_pow (m := 11) (by norm_num) (by norm_num)]
    norm_num
  unfold npFloat16
  rw [if_neg (by norm_num), hlog]
  have hfl : ⌊((2049 : ℕ) : ℚ) / (2 : ℚ) ^ ((11 : ℤ) - 10)⌋ = 1024 := by
    rw [Int.floor_eq_iff]
    constructor <;> norm_num
  unfold roundHalfEvenQ
  rw [hfl]
  rw [if_neg (by push_cast; norm_num), if_neg (by push_cast; norm_num),
    if_pos (by norm_num)]
  norm_num

theorem matMul4_id_id : matMul4 idMat4 idMat4 = idMat4 := by
  funext i j
  fin_cases i <;> fin_cases j <;> simp [matMul4, idMat4]

/-- **C9 (amended).** For a parsed transform with `type = 1` and the identity
matrix, composed with an identity voxel-to-world matrix,
`load_talairach_coordinates` succeeds and the coordinate field holds the raw
voxel index grid — at every voxel `(x, y, z)` the entry is `(x, y, z)` —
provided every axis extent is at most 2049, so that all indices are at most
2048 and survive the float16 cast exactly. -/
theorem load_talairach_identity (s0 s1 s2 : ℕ)
    (h0 : s0 ≤ 2049) (h1 : s1 ≤ 2049) (h2 : s2 ≤ 2049) :
    ∃ f, load_talairach_coordinates ⟨1, idMat4⟩ s0 s1 s2 idMat4 = Except.ok f ∧
      ∀ x y z, x < s0 → y < s1 → z < s2 →
        f x y z 0 = (x : ℚ) ∧ f x y z 1 = (y : ℚ) ∧ f x y z 2 = (z : ℚ) := by
  refine ⟨_, rfl, ?_⟩
  intro x y z hx hy hz
  refine ⟨?_, ?_, ?_⟩
  · show npFloat16 (matMul4 (LTA.mk 1 idMat4).lta idMat4 (Fin.castSucc 0) 0 * x +
        matMul4 (LTA.mk 1 idMat4).lta idMat4 (Fin.castSucc 0) 1 * y +
        matMul4 (LTA.mk 1 idMat4).lta idMat4 (Fin.castSucc 0) 2 * z +
        matMul4 (LTA.mk 1 idMat4).lta idMat4 (Fin.castSucc 0) 3) = (x : ℚ)
    rw [show (LTA.mk 1 idMat4).lta = idMat4 from rfl, matMul4_id_id,
      (by decide : idMat4 (Fin.castSucc 0) 0 = 1),
      (by decide : idMat4 (Fin.castSucc 0) 1 = 0),
      (by decide : idMat4 (Fin.castSucc 0) 2 = 0),
      (by decide : idMat4 (Fin.castSucc 0) 3 = 0),
      show (1 : ℚ) * x + 0 * y + 0 * z + 0 = (x : ℚ) by ring]
    exact npFloat16_natCast x (by omega)
  · show npFloat16 (matMul4 (LTA.mk 1 idMat4).lta idMat4 (Fin.castSucc 1) 0 * x +
        matMul4 (LTA.mk 1 idMat4).lta idMat4 (Fin.castSucc 1) 1 * y +
        matMul4 (LTA.mk 1 idMat4).lta idMat4 (Fin.castSucc 1) 2 * z +
        matMul4 (LTA.mk 1 idMat4).lta idMat4 (Fin.castSucc 1) 3) = (y : ℚ)
    rw [show (LTA.mk 1 idMat4).lta = idMat4 from rfl, matMul4_id_id,
      (by decide : idMat4 (Fin.castSucc 1) 0 = 0),
      (by decide : idMat4 (Fin.castSucc 1) 1 = 1),
      (by decide : idMat4 (Fin.castSucc 1) 2 = 0),
      (by decide : idMat4 (Fin.castSucc 1) 3 = 0),
      show (0 : ℚ) * x + 1 * y + 0 * z + 0 = (y : ℚ) by ring]
    exact npFloat16_natCast y (by omega)
  · show npFloat16 (matMul4 (LTA.mk 1 idMat4).lta idMat4 (Fin.castSucc 2) 0 * x +
        matMul4 (LTA.mk 1 idMat4).lta idMat4 (Fin.castSucc 2) 1 * y +
        matMul4 (LTA.mk 1 idMat4).lta idMat4 (Fin.castSucc 2) 2 * z +
        matMul4 (LTA.mk 1 idMat4).lta idMat4 (Fin.castSucc 2) 3) = (z : ℚ)
    rw [show (LTA.mk 1 idMat4).lta = idMat4 from rfl, matMul4_id_id,
      (by decide : idMat4 (Fin.castSucc 2) 0 = 0),
      (by decide : idMat4 (Fin.castSucc 2) 1 = 0),
      (by decide : idMat4 (Fin.castSucc 2) 2 = 1),
      (by decide : idMat4 (Fin.castSucc 2) 3 = 0),
      show (0 : ℚ) * x + 0 * y + 1 * z + 0 = (z : ℚ) by ring]
    exact npFloat16_natCast z (by omega)

/-- **C9 (counterexample).** For the identity scenario on a volume of shape
(2050, 1, 1) the claim fails as stated: at voxel (2049, 0, 0) the float16
cast rounds the coordinate 2049 (which needs 12 significand bits) to 2048,
so the field is not the raw voxel index grid. -/
theorem load_talairach_identity_counterexample :
    ∃ f, load_talairach_coordinates ⟨1, idMat4⟩ 2050 1 1 idMat4 = Except.ok f ∧
      2049 < 2050 ∧ f 2049 0 0 0 = 2048 ∧ (2048 : ℚ) ≠ ((2049 : ℕ) : ℚ) := by
  refine ⟨_, rfl, by norm_num, ?_, by norm_num⟩
  show npFloat16 (matMul4 (LTA.mk 1 idMat4).lta idMat4 (Fin.castSucc 0) 0 * ((2049 : ℕ) : ℚ) +
      matMul4 (LTA.mk 1 idMat4).lta idMat4 (Fin.castSucc 0) 1 * ((0 : ℕ) : ℚ) +
      matMul4 (LTA.mk 1 idMat4).lta idMat4 (Fin.castSucc 0) 2 * ((0 : ℕ) : ℚ) +
      matMul4 (LTA.mk 1 idMat4).lta idMat4 (Fin.castSucc 0) 3) = (2048 : ℚ)
  rw [show (LTA.mk 1 idMat4).lta = idMat4 from rfl, matMul4_id_id,
    (by decide : idMat4 (Fin.castSucc 0) 0 = 1),
    (by decide : idMat4 (Fin.castSucc 0) 1 = 0),
    (by decide : idMat4 (Fin.castSucc 0) 2 = 0),
    (by decide : idMat4 (Fin.castSucc 0) 3 = 0),
    show (1 : ℚ) * ((2049 : ℕ) : ℚ) + 0 * ((0 : ℕ) : ℚ) + 0 * ((0 : ℕ) : ℚ) + 0 =
      ((2049 : ℕ) : ℚ) by ring, npFloat16_2049]

/-- Witness for C9: the identity-scenario theorem applied to a volume of
shape (4, 4, 4). -/
theorem load_talairach_identity_witness :
    ∃ f, load_talairach_coordinates ⟨1, idMat4⟩ 4 4 4 idMat4 = Except.ok f ∧
      ∀ x y z, x < 4 → y < 4 → z < 4 →
        f x y z 0 = (x : ℚ) ∧ f x y z 1 = (y : ℚ) ∧ f x y z 2 = (z : ℚ) :=
  load_talairach_identity 4 4 4 (by decide) (by decide) (by decide)
